import Mathlib

/-!
Verification development for the BTC multi-timeframe RSI alert bot
(`rsi_bot.py`).  The pure logic of the program is embedded shallowly:

* `classify_zone` embeds the zone classifier (lines 91-94);
* `TFState` and `step` embed the per-timeframe alert decision engine,
  i.e. the body of the sweep loop in `main` (lines 134-165), with the
  ambient wall-clock time `now_t`, the fetched RSI value and the fetched
  candle timestamp passed explicitly;
* `Provider`, `probeSyms` and `pick_working_market` embed the market
  source selector (lines 59-83), with the effects of each provider
  (constructor success, market-metadata load, per-symbol OHLCV probe)
  given as data; the selector model also returns the ordered trace of
  the `(exchange id, symbol)` pairs it actually probed;
* `send_telegram` embeds the notifier (lines 42-50), returning the list
  of externally visible effects (log lines and HTTP posts).

Numeric RSI values and wall-clock instants (Python floats) are embedded
as rationals; candle timestamps (Python ints) as integers.
-/

namespace RSIBot

/-- Threshold below which RSI is oversold (`LOW_THRESH = 20.0`). -/
def LOW_THRESH : ℚ := 20

/-- Threshold above which RSI is overbought (`HIGH_THRESH = 80.0`). -/
def HIGH_THRESH : ℚ := 80

/-- Per-timeframe, per-side alert cooldown (`COOLDOWN_SECONDS = 300`). -/
def COOLDOWN_SECONDS : ℚ := 300

/-- The three RSI zones, the values of `classify_zone` (the Python code
uses the strings "below", "above", "normal"). -/
inductive Zone
  | below
  | above
  | normal
deriving DecidableEq

/-- Which side an emitted alert is on: `low` is the oversold alert,
`high` the overbought alert. -/
inductive Side
  | low
  | high
deriving DecidableEq

/-- `classify_zone` (lines 91-94): strict comparisons against the two
thresholds, `normal` otherwise. -/
def classify_zone (rsi : ℚ) : Zone :=
  if rsi < LOW_THRESH then Zone.below
  else if rsi > HIGH_THRESH then Zone.above
  else Zone.normal

/-- The mutable per-timeframe state dictionary (lines 107-114). -/
structure TFState where
  last_zone : Zone
  last_ts : ℤ
  last_alert_low : ℚ
  last_alert_high : ℚ
deriving DecidableEq

/-- Initial per-timeframe state (lines 108-113): zone "normal", candle
timestamp 0, both alert times 0.0. -/
def initState : TFState :=
  { last_zone := Zone.normal, last_ts := 0,
    last_alert_low := 0, last_alert_high := 0 }

/-- One cycle of the alert decision engine for one timeframe: the body
of the sweep loop in `main` (lines 134-165).  Inputs are the freshly
fetched RSI value `rsi`, its candle timestamp `ts` and the current
wall-clock time `now_t`; the result is the updated state together with
the alert emitted this cycle, if any.  The in-branch assignments to
`last_alert_low` / `last_alert_high` (lines 151, 158) and the
unconditional trailing updates of `last_zone` and `last_ts`
(lines 164-165) are folded into the returned record. -/
def step (s : TFState) (rsi : ℚ) (ts : ℤ) (now_t : ℚ) : TFState × Option Side :=
  let zone := classify_zone rsi
  let new_candle := ts ≠ s.last_ts
  let crossed_below := new_candle ∧ s.last_zone ≠ Zone.below ∧ zone = Zone.below
  let crossed_above := new_candle ∧ s.last_zone ≠ Zone.above ∧ zone = Zone.above
  let can_low := now_t - s.last_alert_low ≥ COOLDOWN_SECONDS
  let can_high := now_t - s.last_alert_high ≥ COOLDOWN_SECONDS
  if zone = Zone.below ∧ (crossed_below ∨ can_low) then
    ({ s with last_zone := zone, last_ts := ts, last_alert_low := now_t },
     some Side.low)
  else if zone = Zone.above ∧ (crossed_above ∨ can_high) then
    ({ s with last_zone := zone, last_ts := ts, last_alert_high := now_t },
     some Side.high)
  else
    ({ s with last_zone := zone, last_ts := ts }, none)

/-- The crossing predicate of line 137: a new candle whose zone enters
`below` from a different stored zone. -/
def crossedIntoBelow (s : TFState) (rsi : ℚ) (ts : ℤ) : Prop :=
  ts ≠ s.last_ts ∧ s.last_zone ≠ Zone.below ∧ classify_zone rsi = Zone.below

/-- The crossing predicate of line 138: a new candle whose zone enters
`above` from a different stored zone. -/
def crossedIntoAbove (s : TFState) (rsi : ℚ) (ts : ℤ) : Prop :=
  ts ≠ s.last_ts ∧ s.last_zone ≠ Zone.above ∧ classify_zone rsi = Zone.above

/-- A sample stored state for concrete checks: zone `below`, candle
timestamp 0, low-side alert last sent at wall-clock 7. -/
def sBelow : TFState :=
  { last_zone := Zone.below, last_ts := 0,
    last_alert_low := 7, last_alert_high := 0 }

/-- The extreme zone corresponding to an alert side. -/
def sideZone : Side → Zone
  | Side.low => Zone.below
  | Side.high => Zone.above

/-- The stored last-alert time for a side. -/
def sideAlertTime (s : TFState) : Side → ℚ
  | Side.low => s.last_alert_low
  | Side.high => s.last_alert_high

/-- Model of one exchange entry of `SYMBOL_CANDIDATES` (lines 15-21)
together with the outcomes of the external calls made for it during
selection: `init` is the outcome of `make_exchange` (line 63), `load`
the outcome of `ex.load_markets()` (line 69, which is only logged), and
`probe sym` the outcome of `ex.fetch_ohlcv(sym, timeframe="1m",
limit=10)` (line 74): an exception, or a list of candles, each candle a
list of numeric fields. -/
structure Provider where
  ex_id : String
  init : Except String Unit
  load : Except String Unit
  syms : List String
  probe : String → Except String (List (List ℚ))

/-- The inner candidate loop of `pick_working_market` (lines 72-81) for
a provider whose constructor succeeded: probe each symbol in order and
accept the first whose result is a non-empty candle list whose first
candle has at least 5 fields, threading the last error observed through
`Option String`.  The first component is the ordered trace of
`(exchange id, symbol)` pairs actually probed; the second the accepted
pair, if any; the third the final last-error value. -/
def probeSyms (p : Provider) :
    Option String → List String →
      List (String × String) × Option (String × String) × Option String
  | le, [] => ([], none, le)
  | le, s :: rest =>
    match p.probe s with
    | Except.ok [] =>
      let r := probeSyms p le rest
      ((p.ex_id, s) :: r.1, r.2)
    | Except.ok (c :: _) =>
      if 5 ≤ c.length then ([(p.ex_id, s)], some (p.ex_id, s), le)
      else
        let r := probeSyms p le rest
        ((p.ex_id, s) :: r.1, r.2)
    | Except.error e =>
      let r := probeSyms p (some e) rest
      ((p.ex_id, s) :: r.1, r.2)

/-- `pick_working_market` (lines 59-83): try the providers in order; a
constructor failure records the error and skips to the next provider; a
market-metadata load failure is only logged and does not interrupt the
probing; the first working `(exchange id, symbol)` pair is returned,
and when none exists the raised error carries the last underlying error
observed (line 83).  The first component is the ordered trace of probe
attempts. -/
def pick_working_market :
    Option String → List Provider →
      List (String × String) × Except (Option String) (String × String)
  | le, [] => ([], Except.error le)
  | le, p :: rest =>
    match p.init with
    | Except.error e => pick_working_market (some e) rest
    | Except.ok _ =>
      let r := probeSyms p le p.syms
      match r.2.1 with
      | some pr => (r.1, Except.ok pr)
      | none =>
        let r2 := pick_working_market r.2.2 rest
        (r.1 ++ r2.1, r2.2)

/-- Specification-level predicate: a candidate is working when its
probe returns at least one candle whose first candle has at least five
fields. -/
def workingB (p : Provider) (s : String) : Bool :=
  match p.probe s with
  | Except.ok (c :: _) => decide (5 ≤ c.length)
  | _ => false

/-- The symbol candidates a provider exposes to the probing loop: all
of them when its constructor succeeds, none otherwise. -/
def candidatesOf (p : Provider) : List (Provider × String) :=
  match p.init with
  | Except.ok _ => p.syms.map (fun s => (p, s))
  | Except.error _ => []

/-- All probe candidates of a provider list, in selection order:
earlier providers contribute all their candidates before any candidate
of a later provider. -/
def allCands (provs : List Provider) : List (Provider × String) :=
  provs.flatMap candidatesOf

/-- The prefix of a list up to and including its first element
satisfying `pred`, or the whole list when none does. -/
def takeThrough {α : Type} (pred : α → Bool) : List α → List α
  | [] => []
  | a :: rest => if pred a then [a] else a :: takeThrough pred rest

/-- The last error observed while probing every symbol of one provider,
starting from `le`: only probe exceptions update it; a malformed but
exception-free probe result does not. -/
def lastErrSyms (p : Provider) : Option String → List String → Option String
  | le, [] => le
  | le, s :: rest =>
    match p.probe s with
    | Except.ok _ => lastErrSyms p le rest
    | Except.error e => lastErrSyms p (some e) rest

/-- The last error observed over a selection pass in which every
candidate fails: constructor errors and probe exceptions, in order. -/
def lastErr : Option String → List Provider → Option String
  | le, [] => le
  | le, p :: rest =>
    match p.init with
    | Except.error e => lastErr (some e) rest
    | Except.ok _ => lastErr (lastErrSyms p le p.syms) rest

/-- An externally visible effect of `send_telegram`: a console log line
or an HTTP POST to the bot messaging API. -/
inductive TgEffect
  | logLine (line : String)
  | postMessage (url : String) (chat_id : String) (text : String) (timeout : ℕ)
deriving DecidableEq

/-- `send_telegram` (lines 42-50), with the two credential environment
values passed explicitly (an unset environment variable reads as the
empty string, line 12-13): when either credential is empty the would-be
message is only written to the log; otherwise a POST with a 15 second
timeout is issued to the bot API.  The `Unit` result models that the
function always returns successfully (transport errors are caught and
logged, lines 49-50). -/
def send_telegram (bot_token chat_id : String) (text : String) :
    List TgEffect × Unit :=
  if bot_token = "" ∨ chat_id = "" then
    ([TgEffect.logLine ("(TELEGRAM DISABLED) " ++ text)], ())
  else
    ([TgEffect.postMessage
        ("https://api.telegram.org/bot" ++ bot_token ++ "/sendMessage")
        chat_id text 15], ())

/-- A provider whose market-metadata load fails but whose constructor
and first probe succeed. -/
def pLoadFail : Provider :=
  { ex_id := "okx", init := Except.ok (), load := Except.error "load failed",
    syms := ["BTC-USDT"], probe := fun _ => Except.ok [[1, 2, 3, 4, 5]] }

/-- A fully working provider. -/
def pOk : Provider :=
  { ex_id := "bybit", init := Except.ok (), load := Except.ok (),
    syms := ["BTC/USDT"], probe := fun _ => Except.ok [[1, 2, 3, 4, 5]] }

/-- A provider whose constructor fails. -/
def pInitFail : Provider :=
  { ex_id := "kraken", init := Except.error "ctor boom",
    load := Except.ok (),
    syms := ["BTC/USD"], probe := fun _ => Except.error "unused" }

/-- A provider all of whose candidates fail, for the selector ordering
scenario. -/
def exP1 : Provider :=
  { ex_id := "P1", init := Except.ok (), load := Except.ok (),
    syms := ["A", "B"], probe := fun _ => Except.error "down" }

/-- A provider whose second candidate works, for the selector ordering
scenario. -/
def exP2 : Provider :=
  { ex_id := "P2", init := Except.ok (), load := Except.ok (),
    syms := ["C", "D"],
    probe := fun s =>
      if s = "D" then Except.ok [[1, 2, 3, 4, 5]]
      else Except.error "bad symbol" }

example : classify_zone 15 = Zone.below := by decide
example : classify_zone 20 = Zone.normal := by decide
example : classify_zone 80 = Zone.normal := by decide
example : classify_zone 85 = Zone.above := by decide

example : (step initState 15 0 400).2 = some Side.low := by
  norm_num [step, classify_zone, initState, LOW_THRESH, HIGH_THRESH, COOLDOWN_SECONDS]

example : (step initState 15 7 100).2 = some Side.low := by
  norm_num [step, classify_zone, initState, LOW_THRESH, HIGH_THRESH, COOLDOWN_SECONDS]
  decide

example :
    (step { initState with last_zone := Zone.below, last_alert_low := 50 }
      15 7 100).2 = none := by
  norm_num [step, classify_zone, initState, LOW_THRESH, HIGH_THRESH, COOLDOWN_SECONDS]

lemma step_fst_last_zone (s : TFState) (rsi : ℚ) (ts : ℤ) (now_t : ℚ) :
    (step s rsi ts now_t).1.last_zone = classify_zone rsi := by
  simp only [step]
  split_ifs <;> rfl

lemma step_fst_last_ts (s : TFState) (rsi : ℚ) (ts : ℤ) (now_t : ℚ) :
    (step s rsi ts now_t).1.last_ts = ts := by
  simp only [step]
  split_ifs <;> rfl

/-- Claim C1: from a stored `normal` zone, a sample classified into an
extreme zone that arrives on a new candle timestamp fires the alert for
that side and sets the corresponding last-alert time to `now_t`,
whatever the prior value of that last-alert time was: the crossing
bypasses the cooldown.  `side = low` is the oversold case, `side = high`
the overbought case. -/
theorem crossing_alert_bypasses_cooldown
    (s : TFState) (rsi : ℚ) (ts : ℤ) (now_t : ℚ) (side : Side)
    (hz : s.last_zone = Zone.normal)
    (hc : classify_zone rsi = sideZone side)
    (ht : ts ≠ s.last_ts) :
    (step s rsi ts now_t).2 = some side ∧
      sideAlertTime (step s rsi ts now_t).1 side = now_t := by
  cases side with
  | low =>
    have hb : classify_zone rsi = Zone.below := hc
    have hlz : s.last_zone ≠ Zone.below := by rw [hz]; decide
    simp only [step]
    split_ifs with h1 h2
    · exact ⟨rfl, rfl⟩
    · exact absurd ⟨hb, Or.inl ⟨ht, hlz, hb⟩⟩ h1
    · exact absurd ⟨hb, Or.inl ⟨ht, hlz, hb⟩⟩ h1
  | high =>
    have ha : classify_zone rsi = Zone.above := hc
    have hlz : s.last_zone ≠ Zone.above := by rw [hz]; decide
    simp only [step]
    split_ifs with h1 h2
    · rw [ha] at h1
      exact absurd h1.1 (by decide)
    · exact ⟨rfl, rfl⟩
    · exact absurd ⟨ha, Or.inl ⟨ht, hlz, ha⟩⟩ h2

/-- Witness for C1 at a concrete input: initial state, RSI 10 on candle
timestamp 5 at wall-clock 0. -/
theorem crossing_alert_bypasses_cooldown_witness :
    initState.last_zone = Zone.normal ∧
    classify_zone 10 = sideZone Side.low ∧
    (5 : ℤ) ≠ initState.last_ts ∧
    ((step initState 10 5 0).2 = some Side.low ∧
      sideAlertTime (step initState 10 5 0).1 Side.low = 0) :=
  ⟨rfl, by decide, by decide,
    crossing_alert_bypasses_cooldown initState 10 5 0 Side.low rfl
      (by decide) (by decide)⟩

/-- Claim C2: with `below` already stored, a sample still classified
`below` on a new candle fires the oversold alert exactly when the low
cooldown has expired, and the stored zone and candle timestamp are
updated to the new sample in either case. -/
theorem in_zone_realert_iff_cooldown
    (s : TFState) (rsi : ℚ) (ts : ℤ) (now_t : ℚ)
    (hz : s.last_zone = Zone.below)
    (hc : classify_zone rsi = Zone.below)
    (_ht : ts ≠ s.last_ts) :
    ((step s rsi ts now_t).2 =
      if now_t - s.last_alert_low ≥ COOLDOWN_SECONDS then some Side.low
      else none) ∧
    (step s rsi ts now_t).1.last_zone = Zone.below ∧
    (step s rsi ts now_t).1.last_ts = ts := by
  refine ⟨?_, by rw [step_fst_last_zone, hc], step_fst_last_ts s rsi ts now_t⟩
  by_cases hcool : now_t - s.last_alert_low ≥ COOLDOWN_SECONDS
  · have hcond : classify_zone rsi = Zone.below ∧
        ((ts ≠ s.last_ts ∧ s.last_zone ≠ Zone.below ∧
            classify_zone rsi = Zone.below) ∨
          now_t - s.last_alert_low ≥ COOLDOWN_SECONDS) :=
      ⟨hc, Or.inr hcool⟩
    simp only [step]
    rw [if_pos hcond, if_pos hcool]
  · have hcond : ¬(classify_zone rsi = Zone.below ∧
        ((ts ≠ s.last_ts ∧ s.last_zone ≠ Zone.below ∧
            classify_zone rsi = Zone.below) ∨
          now_t - s.last_alert_low ≥ COOLDOWN_SECONDS)) := by
      intro h
      rcases h.2 with hcr | hco
      · exact hcr.2.1 hz
      · exact hcool hco
    have hcond2 : ¬(classify_zone rsi = Zone.above ∧
        ((ts ≠ s.last_ts ∧ s.last_zone ≠ Zone.above ∧
            classify_zone rsi = Zone.above) ∨
          now_t - s.last_alert_high ≥ COOLDOWN_SECONDS)) := by
      intro h
      exact absurd (hc.symm.trans h.1) (by decide)
    simp only [step]
    rw [if_neg hcond, if_neg hcond2, if_neg hcool]

/-- Witness for C2 at a concrete input: stored zone `below` with a low
alert at wall-clock 7, sampled at wall-clock 100, RSI 15 on candle
timestamp 3. -/
theorem in_zone_realert_iff_cooldown_witness :
    sBelow.last_zone = Zone.below ∧
    classify_zone 15 = Zone.below ∧
    ((3 : ℤ) ≠ sBelow.last_ts) ∧
    (((step sBelow 15 3 100).2 =
        if (100 : ℚ) - sBelow.last_alert_low ≥ COOLDOWN_SECONDS
        then some Side.low else none) ∧
      (step sBelow 15 3 100).1.last_zone = Zone.below ∧
      (step sBelow 15 3 100).1.last_ts = 3) :=
  ⟨rfl, by decide, by decide,
    in_zone_realert_iff_cooldown sBelow 15 3 100 rfl (by decide) (by decide)⟩

/-- Claim C3: on an unchanged candle timestamp both crossing predicates
are false, whatever the zones are, and the alert decision reduces to the
pure cooldown rule, which can still emit an alert in an extreme zone. -/
theorem same_candle_cooldown_only (s : TFState) (rsi : ℚ) (now_t : ℚ) :
    ¬ crossedIntoBelow s rsi s.last_ts ∧
    ¬ crossedIntoAbove s rsi s.last_ts ∧
    (step s rsi s.last_ts now_t).2 =
      (if classify_zone rsi = Zone.below ∧
          now_t - s.last_alert_low ≥ COOLDOWN_SECONDS then some Side.low
       else if classify_zone rsi = Zone.above ∧
          now_t - s.last_alert_high ≥ COOLDOWN_SECONDS then some Side.high
       else none) := by
  refine ⟨fun h => h.1 rfl, fun h => h.1 rfl, ?_⟩
  by_cases hbl : classify_zone rsi = Zone.below
  · by_cases hcool : now_t - s.last_alert_low ≥ COOLDOWN_SECONDS
    · simp only [step]
      rw [if_pos ⟨hbl, Or.inr hcool⟩, if_pos ⟨hbl, hcool⟩]
    · have h1 : ¬(classify_zone rsi = Zone.below ∧
          ((s.last_ts ≠ s.last_ts ∧ s.last_zone ≠ Zone.below ∧
              classify_zone rsi = Zone.below) ∨
            now_t - s.last_alert_low ≥ COOLDOWN_SECONDS)) := by
        intro h
        rcases h.2 with hcr | hco
        · exact hcr.1 rfl
        · exact hcool hco
      have h2 : ¬(classify_zone rsi = Zone.above ∧
          ((s.last_ts ≠ s.last_ts ∧ s.last_zone ≠ Zone.above ∧
              classify_zone rsi = Zone.above) ∨
            now_t - s.last_alert_high ≥ COOLDOWN_SECONDS)) :=
        fun h => absurd (hbl.symm.trans h.1) (by decide)
      have h1R : ¬(classify_zone rsi = Zone.below ∧
          now_t - s.last_alert_low ≥ COOLDOWN_SECONDS) := fun h => hcool h.2
      have h2R : ¬(classify_zone rsi = Zone.above ∧
          now_t - s.last_alert_high ≥ COOLDOWN_SECONDS) :=
        fun h => absurd (hbl.symm.trans h.1) (by decide)
      simp only [step]
      rw [if_neg h1, if_neg h2, if_neg h1R, if_neg h2R]
  · by_cases hab : classify_zone rsi = Zone.above
    · by_cases hcool : now_t - s.last_alert_high ≥ COOLDOWN_SECONDS
      · have h1 : ¬(classify_zone rsi = Zone.below ∧
            ((s.last_ts ≠ s.last_ts ∧ s.last_zone ≠ Zone.below ∧
                classify_zone rsi = Zone.below) ∨
              now_t - s.last_alert_low ≥ COOLDOWN_SECONDS)) :=
          fun h => hbl h.1
        have h1R : ¬(classify_zone rsi = Zone.below ∧
            now_t - s.last_alert_low ≥ COOLDOWN_SECONDS) := fun h => hbl h.1
        simp only [step]
        rw [if_neg h1, if_pos ⟨hab, Or.inr hcool⟩, if_neg h1R,
          if_pos ⟨hab, hcool⟩]
      · have h1 : ¬(classify_zone rsi = Zone.below ∧
            ((s.last_ts ≠ s.last_ts ∧ s.last_zone ≠ Zone.below ∧
                classify_zone rsi = Zone.below) ∨
              now_t - s.last_alert_low ≥ COOLDOWN_SECONDS)) :=
          fun h => hbl h.1
        have h2 : ¬(classify_zone rsi = Zone.above ∧
            ((s.last_ts ≠ s.last_ts ∧ s.last_zone ≠ Zone.above ∧
                classify_zone rsi = Zone.above) ∨
              now_t - s.last_alert_high ≥ COOLDOWN_SECONDS)) := by
          intro h
          rcases h.2 with hcr | hco
          · exact hcr.1 rfl
          · exact hcool hco
        have h1R : ¬(classify_zone rsi = Zone.below ∧
            now_t - s.last_alert_low ≥ COOLDOWN_SECONDS) := fun h => hbl h.1
        have h2R : ¬(classify_zone rsi = Zone.above ∧
            now_t - s.last_alert_high ≥ COOLDOWN_SECONDS) :=
          fun h => hcool h.2
        simp only [step]
        rw [if_neg h1, if_neg h2, if_neg h1R, if_neg h2R]
    · have h1 : ¬(classify_zone rsi = Zone.below ∧
          ((s.last_ts ≠ s.last_ts ∧ s.last_zone ≠ Zone.below ∧
              classify_zone rsi = Zone.below) ∨
            now_t - s.last_alert_low ≥ COOLDOWN_SECONDS)) :=
        fun h => hbl h.1
      have h2 : ¬(classify_zone rsi = Zone.above ∧
          ((s.last_ts ≠ s.last_ts ∧ s.last_zone ≠ Zone.above ∧
              classify_zone rsi = Zone.above) ∨
            now_t - s.last_alert_high ≥ COOLDOWN_SECONDS)) :=
        fun h => hab h.1
      have h1R : ¬(classify_zone rsi = Zone.below ∧
          now_t - s.last_alert_low ≥ COOLDOWN_SECONDS) := fun h => hbl h.1
      have h2R : ¬(classify_zone rsi = Zone.above ∧
          now_t - s.last_alert_high ≥ COOLDOWN_SECONDS) := fun h => hab h.1
      simp only [step]
      rw [if_neg h1, if_neg h2, if_neg h1R, if_neg h2R]

/-- Claim C4: `classify_zone` returns `below` exactly on RSI values
strictly under 20, `above` exactly on values strictly over 80, and
`normal` exactly on the closed band between them; in particular the
boundary values 20 and 80 classify as `normal`. -/
theorem classify_zone_spec (r : ℚ) :
    (classify_zone r = Zone.below ↔ r < 20) ∧
    (classify_zone r = Zone.above ↔ 80 < r) ∧
    (classify_zone r = Zone.normal ↔ 20 ≤ r ∧ r ≤ 80) ∧
    classify_zone 20 = Zone.normal ∧
    classify_zone 80 = Zone.normal := by
  refine ⟨?_, ?_, ?_, by decide, by decide⟩
  · unfold classify_zone LOW_THRESH HIGH_THRESH
    split_ifs with h1 h2
    · simp [h1]
    · simp only [not_lt] at h1
      constructor
      · intro h
        cases h
      · intro h
        exact absurd h (not_lt.2 h1)
    · simp only [not_lt] at h1
      constructor
      · intro h
        cases h
      · intro h
        exact absurd h (not_lt.2 h1)
  · unfold classify_zone LOW_THRESH HIGH_THRESH
    split_ifs with h1 h2
    · constructor
      · intro h
        cases h
      · intro h
        exact absurd h1 (not_lt.2 (le_of_lt (lt_trans (by norm_num) h)))
    · simp [h2]
    · simp only [not_lt] at h2
      constructor
      · intro h
        cases h
      · intro h
        exact absurd h (not_lt.2 h2)
  · unfold classify_zone LOW_THRESH HIGH_THRESH
    split_ifs with h1 h2
    · constructor
      · intro h
        cases h
      · intro h
        exact absurd h1 (not_lt.2 h.1)
    · constructor
      · intro h
        cases h
      · intro h
        exact absurd h2 (not_lt.2 h.2)
    · simp only [not_lt] at h1 h2
      simp [h1, h2]

/-- Claim C5: a sample classified `normal` never emits an alert, for
every prior state; in particular a transition from an extreme zone back
to `normal` is silent. -/
theorem normal_zone_no_alert (s : TFState) (rsi : ℚ) (ts : ℤ) (now_t : ℚ)
    (hc : classify_zone rsi = Zone.normal) :
    (step s rsi ts now_t).2 = none := by
  simp [step, hc]

/-- Witness for C5 at a concrete input: stored zone `below`, RSI 50 on a
new candle. -/
theorem normal_zone_no_alert_witness :
    classify_zone 50 = Zone.normal ∧
    (step sBelow 50 9 1000).2 = none :=
  ⟨by decide, normal_zone_no_alert sBelow 50 9 1000 (by decide)⟩

/-- Claim C6: every cycle ends with the stored zone equal to the
classification of the sample just processed and the stored candle
timestamp equal to that sample's timestamp, whether or not an alert
fired. -/
theorem state_update_unconditional
    (s : TFState) (rsi : ℚ) (ts : ℤ) (now_t : ℚ) :
    (step s rsi ts now_t).1.last_zone = classify_zone rsi ∧
    (step s rsi ts now_t).1.last_ts = ts :=
  ⟨step_fst_last_zone s rsi ts now_t, step_fst_last_ts s rsi ts now_t⟩

/-- Claim C10: in the initial per-timeframe state both last-alert times
are 0, so at any wall-clock time at least 300 seconds both cooldown
conditions hold and the first sample classified into an extreme zone
emits that side's alert for every candle timestamp, including on the
non-crossing timestamp 0 stored initially. -/
theorem first_sample_cooldown_alert (now_t rsi : ℚ) (ts : ℤ) (side : Side)
    (hn : (300 : ℚ) ≤ now_t)
    (hc : classify_zone rsi = sideZone side) :
    now_t - initState.last_alert_low ≥ COOLDOWN_SECONDS ∧
    now_t - initState.last_alert_high ≥ COOLDOWN_SECONDS ∧
    (step initState rsi ts now_t).2 = some side := by
  have hcool : now_t - (0 : ℚ) ≥ COOLDOWN_SECONDS := by
    rw [sub_zero]
    exact hn
  refine ⟨hcool, hcool, ?_⟩
  cases side with
  | low =>
    have hb : classify_zone rsi = Zone.below := hc
    simp only [step, initState]
    split_ifs with h1 h2
    · rfl
    · exact absurd ⟨hb, Or.inr hcool⟩ h1
    · exact absurd ⟨hb, Or.inr hcool⟩ h1
  | high =>
    have ha : classify_zone rsi = Zone.above := hc
    simp only [step, initState]
    split_ifs with h1 h2
    · rw [ha] at h1
      exact absurd h1.1 (by decide)
    · rfl
    · exact absurd ⟨ha, Or.inr hcool⟩ h2

/-- Witness for C10 at a concrete input: wall-clock 400, RSI 10, the
candle timestamp 0 equal to the initial stored one. -/
theorem first_sample_cooldown_alert_witness :
    (300 : ℚ) ≤ 400 ∧
    classify_zone 10 = sideZone Side.low ∧
    ((400 : ℚ) - initState.last_alert_low ≥ COOLDOWN_SECONDS ∧
      (400 : ℚ) - initState.last_alert_high ≥ COOLDOWN_SECONDS ∧
      (step initState 10 0 400).2 = some Side.low) :=
  ⟨by decide, by decide,
    first_sample_cooldown_alert 400 10 0 Side.low (by decide) (by decide)⟩

lemma find?_append_none {α : Type} (pred : α → Bool) (l1 l2 : List α)
    (h : l1.find? pred = none) :
    (l1 ++ l2).find? pred = l2.find? pred := by
  induction l1 with
  | nil => rfl
  | cons a l ih =>
    simp only [List.find?] at h ⊢
    cases hp : pred a with
    | true => rw [hp] at h; cases h
    | false =>
      rw [hp] at h
      simp only [List.cons_append, List.find?, hp]
      exact ih h

lemma find?_append_some {α : Type} (pred : α → Bool) (l1 l2 : List α)
    (a : α) (h : l1.find? pred = some a) :
    (l1 ++ l2).find? pred = some a := by
  induction l1 with
  | nil => cases h
  | cons b l ih =>
    simp only [List.find?] at h ⊢
    cases hp : pred b with
    | true =>
      rw [hp] at h
      simp only [List.cons_append, List.find?, hp]
      exact h
    | false =>
      rw [hp] at h
      simp only [List.cons_append, List.find?, hp]
      exact ih h

lemma takeThrough_eq_self {α : Type} (pred : α → Bool) (l : List α)
    (h : l.find? pred = none) :
    takeThrough pred l = l := by
  induction l with
  | nil => rfl
  | cons a t ih =>
    simp only [List.find?] at h
    cases hp : pred a with
    | true => rw [hp] at h; cases h
    | false =>
      rw [hp] at h
      simp only [takeThrough, hp, if_neg Bool.false_ne_true]
      rw [ih h]

lemma takeThrough_append_none {α : Type} (pred : α → Bool) (l1 l2 : List α)
    (h : l1.find? pred = none) :
    takeThrough pred (l1 ++ l2) = l1 ++ takeThrough pred l2 := by
  induction l1 with
  | nil => rfl
  | cons a t ih =>
    simp only [List.find?] at h
    cases hp : pred a with
    | true => rw [hp] at h; cases h
    | false =>
      rw [hp] at h
      simp only [List.cons_append, takeThrough, hp, if_neg Bool.false_ne_true]
      exact congrArg (fun x => a :: x) (ih h)

lemma takeThrough_append_some {α : Type} (pred : α → Bool) (l1 l2 : List α)
    (a : α) (h : l1.find? pred = some a) :
    takeThrough pred (l1 ++ l2) = takeThrough pred l1 := by
  induction l1 with
  | nil => cases h
  | cons b t ih =>
    simp only [List.find?] at h
    cases hp : pred b with
    | true =>
      simp [List.cons_append, takeThrough, hp]
    | false =>
      rw [hp] at h
      simp only [List.cons_append, takeThrough, hp, if_neg Bool.false_ne_true]
      exact congrArg (fun x => b :: x) (ih h)

lemma cands_find (p : Provider) (syms : List String) :
    ((syms.map (fun s => (p, s))).find? (fun c => workingB c.1 c.2)) =
      (syms.find? (workingB p)).map (fun s => (p, s)) := by
  induction syms with
  | nil => rfl
  | cons s t ih =>
    simp only [List.map, List.find?]
    cases hp : workingB p s with
    | true => rfl
    | false => exact ih

lemma cands_takeThrough (p : Provider) (syms : List String) :
    takeThrough (fun c => workingB c.1 c.2) (syms.map (fun s => (p, s))) =
      (takeThrough (workingB p) syms).map (fun s => (p, s)) := by
  induction syms with
  | nil => rfl
  | cons s t ih =>
    simp only [List.map, takeThrough]
    cases hp : workingB p s with
    | true => simp
    | false =>
      simp only [Bool.false_eq_true, if_false, List.map, List.cons.injEq,
        true_and]
      exact ih

lemma workingB_eq (p : Provider) (s : String) :
    workingB p s =
      match p.probe s with
      | Except.ok (c :: _) => decide (5 ≤ c.length)
      | _ => false := rfl

lemma probeSyms_trace (p : Provider) (le : Option String) (syms : List String) :
    (probeSyms p le syms).1 =
      (takeThrough (workingB p) syms).map (fun s => (p.ex_id, s)) := by
  induction syms generalizing le with
  | nil => rfl
  | cons s t ih =>
    cases hp : p.probe s with
    | ok candles =>
      cases candles with
      | nil =>
        simp [probeSyms, hp, takeThrough, workingB_eq p s]
        exact ih le
      | cons c cs =>
        by_cases hl : 5 ≤ c.length
        · simp [probeSyms, hp, hl, takeThrough, workingB_eq p s]
        · simp [probeSyms, hp, hl, takeThrough, workingB_eq p s]
          exact ih le
    | error e =>
      simp [probeSyms, hp, takeThrough, workingB_eq p s]
      exact ih (some e)

lemma probeSyms_found (p : Provider) (le : Option String) (syms : List String) :
    (probeSyms p le syms).2.1 =
      (syms.find? (workingB p)).map (fun s => (p.ex_id, s)) := by
  induction syms generalizing le with
  | nil => rfl
  | cons s t ih =>
    cases hp : p.probe s with
    | ok candles =>
      cases candles with
      | nil =>
        simp [probeSyms, hp, List.find?, workingB_eq p s]
        exact ih le
      | cons c cs =>
        by_cases hl : 5 ≤ c.length
        · simp [probeSyms, hp, hl, List.find?, workingB_eq p s]
        · simp [probeSyms, hp, hl, List.find?, workingB_eq p s]
          exact ih le
    | error e =>
      simp [probeSyms, hp, List.find?, workingB_eq p s]
      exact ih (some e)

lemma probeSyms_err (p : Provider) (le : Option String) (syms : List String)
    (h : syms.find? (workingB p) = none) :
    (probeSyms p le syms).2.2 = lastErrSyms p le syms := by
  induction syms generalizing le with
  | nil => rfl
  | cons s t ih =>
    cases hp : p.probe s with
    | ok candles =>
      cases candles with
      | nil =>
        have hws : workingB p s = false := by rw [workingB_eq p s, hp]
        rw [List.find?_cons, hws] at h
        simp [probeSyms, hp, lastErrSyms]
        exact ih le h
      | cons c cs =>
        by_cases hl : 5 ≤ c.length
        · have hws : workingB p s = true := by
            rw [workingB_eq p s, hp]
            exact decide_eq_true hl
          rw [List.find?_cons, hws] at h
          exact Option.noConfusion h
        · have hws : workingB p s = false := by
            rw [workingB_eq p s, hp]
            exact decide_eq_false hl
          rw [List.find?_cons, hws] at h
          simp [probeSyms, hp, hl, lastErrSyms]
          exact ih le h
    | error e =>
      have hws : workingB p s = false := by rw [workingB_eq p s, hp]
      rw [List.find?_cons, hws] at h
      simp [probeSyms, hp, lastErrSyms]
      exact ih (some e) h

lemma pick_cons_found (p : Provider) (rest : List Provider)
    (le : Option String) (u : Unit) (hi : p.init = Except.ok u)
    (pr : String × String) (hf : (probeSyms p le p.syms).2.1 = some pr) :
    pick_working_market le (p :: rest) =
      ((probeSyms p le p.syms).1, Except.ok pr) := by
  simp [pick_working_market, hi, hf]

lemma pick_cons_notfound (p : Provider) (rest : List Provider)
    (le : Option String) (u : Unit) (hi : p.init = Except.ok u)
    (hf : (probeSyms p le p.syms).2.1 = none) :
    pick_working_market le (p :: rest) =
      ((probeSyms p le p.syms).1 ++
          (pick_working_market (probeSyms p le p.syms).2.2 rest).1,
        (pick_working_market (probeSyms p le p.syms).2.2 rest).2) := by
  simp [pick_working_market, hi, hf]

/-- Claim C8: the selector scans the flattened ordered candidate list —
providers in the given order, each constructor-successful provider
contributing all its symbol candidates in order before any candidate of
a later provider — probing exactly the candidates up to and including
the first working one; it returns the first working
`(exchange id, symbol)` pair, and when no candidate works it fails with
an error carrying the last underlying error observed. -/
theorem selector_first_working (provs : List Provider) (le : Option String) :
    (pick_working_market le provs).1 =
      (takeThrough (fun c => workingB c.1 c.2) (allCands provs)).map
        (fun c => (c.1.ex_id, c.2)) ∧
    (pick_working_market le provs).2 =
      (match (allCands provs).find? (fun c => workingB c.1 c.2) with
        | some c => Except.ok (c.1.ex_id, c.2)
        | none => Except.error (lastErr le provs)) := by
  induction provs generalizing le with
  | nil => exact ⟨rfl, rfl⟩
  | cons p rest ih =>
    have hall : allCands (p :: rest) = candidatesOf p ++ allCands rest := by
      simp [allCands]
    cases hi : p.init with
    | error e =>
      have hco : candidatesOf p = [] := by simp [candidatesOf, hi]
      have hpick : pick_working_market le (p :: rest) =
          pick_working_market (some e) rest := by
        simp [pick_working_market, hi]
      have hle : lastErr le (p :: rest) = lastErr (some e) rest := by
        simp [lastErr, hi]
      rw [hpick, hall, hco, List.nil_append, hle]
      exact ih (some e)
    | ok u =>
      have hco : candidatesOf p = p.syms.map (fun s => (p, s)) := by
        simp [candidatesOf, hi]
      have hle : lastErr le (p :: rest) =
          lastErr (lastErrSyms p le p.syms) rest := by
        simp [lastErr, hi]
      cases hfind : p.syms.find? (workingB p) with
      | some s0 =>
        have hpf : (probeSyms p le p.syms).2.1 = some (p.ex_id, s0) := by
          rw [probeSyms_found, hfind]
          rfl
        have hcf : (p.syms.map (fun s => (p, s))).find?
            (fun c => workingB c.1 c.2) = some (p, s0) := by
          rw [cands_find, hfind]
          rfl
        rw [pick_cons_found p rest le u hi (p.ex_id, s0) hpf]
        constructor
        · rw [probeSyms_trace, hall, hco,
            takeThrough_append_some _ _ _ (p, s0) hcf, cands_takeThrough,
            List.map_map]
          rfl
        · rw [hall, hco, find?_append_some _ _ _ (p, s0) hcf]
      | none =>
        have hpf : (probeSyms p le p.syms).2.1 = none := by
          rw [probeSyms_found, hfind]
          rfl
        have hcf : (p.syms.map (fun s => (p, s))).find?
            (fun c => workingB c.1 c.2) = none := by
          rw [cands_find, hfind]
          rfl
        have herr : (probeSyms p le p.syms).2.2 = lastErrSyms p le p.syms :=
          probeSyms_err p le p.syms hfind
        rw [pick_cons_notfound p rest le u hi hpf, herr]
        obtain ⟨ih1, ih2⟩ := ih (lastErrSyms p le p.syms)
        constructor
        · rw [probeSyms_trace, takeThrough_eq_self _ _ hfind, ih1, hall, hco,
            takeThrough_append_none _ _ _ hcf, List.map_append, List.map_map]
          rfl
        · rw [hall, hco, find?_append_none _ _ _ hcf, hle]
          exact ih2

example :
    (pick_working_market none [exP1, exP2]).2 = Except.ok ("P2", "D") := rfl

example :
    (pick_working_market none [exP1, exP2]).1 =
      [("P1", "A"), ("P1", "B"), ("P2", "C"), ("P2", "D")] := rfl

lemma probeSyms_congr (q p : Provider) (hx : q.ex_id = p.ex_id)
    (hp : q.probe = p.probe) (le : Option String) (syms : List String) :
    probeSyms q le syms = probeSyms p le syms := by
  induction syms generalizing le with
  | nil => rfl
  | cons s t ih =>
    cases hpr : p.probe s with
    | ok candles =>
      cases candles with
      | nil => simp [probeSyms, hx, hp, hpr, ih]
      | cons c cs =>
        by_cases hl : 5 ≤ c.length
        · simp [probeSyms, hx, hp, hpr, hl, ih]
        · simp [probeSyms, hx, hp, hpr, hl, ih]
    | error e => simp [probeSyms, hx, hp, hpr, ih]

lemma pick_congr_head (q p : Provider) (rest : List Provider)
    (le : Option String) (hx : q.ex_id = p.ex_id) (hi : q.init = p.init)
    (hs : q.syms = p.syms) (hp : q.probe = p.probe) :
    pick_working_market le (q :: rest) = pick_working_market le (p :: rest) := by
  cases hini : p.init with
  | error e =>
    have hqi : q.init = Except.error e := by rw [hi, hini]
    simp [pick_working_market, hini, hqi]
  | ok u =>
    have hqi : q.init = Except.ok u := by rw [hi, hini]
    have hpp : probeSyms q le q.syms = probeSyms p le p.syms := by
      rw [hs, probeSyms_congr q p hx hp]
    simp only [pick_working_market, hini, hqi]
    rw [hpp]

lemma pick_load_irrelevant (p : Provider) (l : Except String Unit)
    (rest : List Provider) (le : Option String) :
    pick_working_market le ({ p with load := l } :: rest) =
      pick_working_market le (p :: rest) :=
  pick_congr_head { p with load := l } p rest le rfl rfl rfl rfl

lemma head?_append_some {α : Type} (l1 l2 : List α) (a : α)
    (h : l1.head? = some a) : (l1 ++ l2).head? = some a := by
  cases l1 with
  | nil => cases h
  | cons b t => simpa using h

lemma probeSyms_trace_head (p : Provider) (le : Option String)
    (s : String) (t : List String) :
    (probeSyms p le (s :: t)).1.head? = some (p.ex_id, s) := by
  cases hp : p.probe s with
  | ok candles =>
    cases candles with
    | nil => simp [probeSyms, hp]
    | cons c cs =>
      by_cases hl : 5 ≤ c.length
      · simp [probeSyms, hp, hl]
      · simp [probeSyms, hp, hl]
  | error e => simp [probeSyms, hp]

/-- Claim C7 (counterexample): a provider whose market-metadata load
fails is not skipped by the selector: at this concrete input its
candidate is probed and even selected, so a load failure does not make
the selector continue to the next provider with the candidates
unprobed. -/
theorem selector_load_failure_counterexample :
    pLoadFail.load = Except.error "load failed" ∧
    (pick_working_market none [pLoadFail]).1 = [("okx", "BTC-USDT")] ∧
    (pick_working_market none [pLoadFail]).2 = Except.ok ("okx", "BTC-USDT") :=
  ⟨rfl, rfl, rfl⟩

/-- Claim C7 (amended): a provider whose constructor fails to
initialize is skipped without any of its candidates being probed, its
error is recorded, and selection continues with the remaining providers
(not fatal); a provider whose market-metadata load fails is not
skipped: the load outcome has no effect whatsoever on selection, and
when the constructor succeeded and the provider has at least one
candidate, that first candidate is the very next probe attempted. -/
theorem selector_failure_handling
    (p : Provider) (rest : List Provider) (le : Option String) :
    (∀ e, p.init = Except.error e →
      pick_working_market le (p :: rest) =
        pick_working_market (some e) rest) ∧
    (∀ l, pick_working_market le ({ p with load := l } :: rest) =
      pick_working_market le (p :: rest)) ∧
    (∀ u s t, p.init = Except.ok u → p.syms = s :: t →
      (pick_working_market le (p :: rest)).1.head? = some (p.ex_id, s)) := by
  refine ⟨?_, ?_, ?_⟩
  · intro e hi
    simp [pick_working_market, hi]
  · intro l
    exact pick_load_irrelevant p l rest le
  · intro u s t hi hs
    cases hfind : (probeSyms p le p.syms).2.1 with
    | some pr =>
      rw [pick_cons_found p rest le u hi pr hfind]
      show (probeSyms p le p.syms).1.head? = some (p.ex_id, s)
      rw [hs]
      exact probeSyms_trace_head p le s t
    | none =>
      rw [pick_cons_notfound p rest le u hi hfind]
      show ((probeSyms p le p.syms).1 ++
          (pick_working_market (probeSyms p le p.syms).2.2 rest).1).head? =
        some (p.ex_id, s)
      refine head?_append_some _ _ _ ?_
      rw [hs]
      exact probeSyms_trace_head p le s t

/-- Witness for the amended C7 at concrete inputs: an init-failing
provider is skipped; a load failure changes nothing; a working
provider's first candidate is probed first. -/
theorem selector_failure_handling_witness :
    (pInitFail.init = Except.error "ctor boom" ∧
      pick_working_market none (pInitFail :: [pOk]) =
        pick_working_market (some "ctor boom") [pOk]) ∧
    (pick_working_market none ({ pOk with load := Except.error "warn" } :: []) =
      pick_working_market none (pOk :: [])) ∧
    (pOk.init = Except.ok () ∧ pOk.syms = "BTC/USDT" :: [] ∧
      (pick_working_market none (pOk :: [])).1.head? =
        some ("bybit", "BTC/USDT")) :=
  ⟨⟨rfl, (selector_failure_handling pInitFail [pOk] none).1 "ctor boom" rfl⟩,
    (selector_failure_handling pOk [] none).2.1 (Except.error "warn"),
    ⟨rfl, rfl,
      (selector_failure_handling pOk [] none).2.2 () "BTC/USDT" [] rfl rfl⟩⟩

/-- Claim C9: with either notification credential unset (the empty
string, the value an absent environment variable reads as), the
notifier performs no network call: it only writes the would-be message
to the log stream, and it returns successfully. -/
theorem send_telegram_dry_run (bot_token chat_id text : String)
    (h : bot_token = "" ∨ chat_id = "") :
    (send_telegram bot_token chat_id text).1 =
      [TgEffect.logLine ("(TELEGRAM DISABLED) " ++ text)] ∧
    (∀ url cid t n, TgEffect.postMessage url cid t n ∉
      (send_telegram bot_token chat_id text).1) ∧
    (send_telegram bot_token chat_id text).2 = () := by
  have h1 : send_telegram bot_token chat_id text =
      ([TgEffect.logLine ("(TELEGRAM DISABLED) " ++ text)], ()) := by
    unfold send_telegram
    rw [if_pos h]
  rw [h1]
  refine ⟨rfl, ?_, rfl⟩
  intro url cid t n hmem
  simp at hmem

/-- Witness for C9 at a concrete input: empty bot token, non-empty
destination id. -/
theorem send_telegram_dry_run_witness :
    (("" : String) = "" ∨ ("123456" : String) = "") ∧
    ((send_telegram "" "123456" "alert text").1 =
        [TgEffect.logLine ("(TELEGRAM DISABLED) " ++ "alert text")] ∧
      (∀ url cid t n, TgEffect.postMessage url cid t n ∉
        (send_telegram "" "123456" "alert text").1) ∧
      (send_telegram "" "123456" "alert text").2 = ()) :=
  ⟨Or.inl rfl, send_telegram_dry_run "" "123456" "alert text" (Or.inl rfl)⟩

end RSIBot
